import Mathlib

/-!
Verification of the on-page SEO analyzer (`seo_analyzer_tool.py`).

The development shallowly embeds the content-analysis pipeline of the source:
`clean_and_tokenize`, `get_ngram_density` and `analyze_seo`.  Python strings
are modelled as `List Char`; the parsed document (the BeautifulSoup value the
source traverses) is modelled as an explicit `Soup` record holding exactly the
pieces the source queries; real arithmetic is modelled over `ℚ`, with
Python's `round(x, 2)` as round-half-to-even at two decimals.  `analyze_seo`
returns an `Option` because the source can raise (`soup.title.string` is
`None` for a `<title>` tag without a single text child, and `.strip()` then
raises `AttributeError`); `none` models that exception.
-/

set_option maxRecDepth 4000

namespace Seo

/-- Python strings, modelled as lists of characters. -/
abbrev Str := List Char

/-- Round half to even, as Python's `round` does on the integer grid. -/
def rhe (x : ℚ) : ℤ :=
  if x - ⌊x⌋ < 1/2 then ⌊x⌋
  else if 1/2 < x - ⌊x⌋ then ⌊x⌋ + 1
  else if ⌊x⌋ % 2 = 0 then ⌊x⌋ else ⌊x⌋ + 1

/-- Python `round(x, 2)`: round half to even at two decimal places. -/
def round2 (x : ℚ) : ℚ := (rhe (x * 100) : ℚ) / 100

/-- Python `str.lower` (ASCII range, as relevant to the analyzer). -/
def pyLower (s : Str) : Str := s.map Char.toLower

/-- Python `str.strip`: drop leading and trailing whitespace. -/
def pyStrip (s : Str) : Str :=
  ((s.dropWhile Char.isWhitespace).reverse.dropWhile Char.isWhitespace).reverse

/-- Python `pat in s` for strings: substring containment. -/
def hasSub (s pat : Str) : Bool :=
  if pat.isPrefixOf s then true
  else
    match s with
    | [] => false
    | _ :: rest => hasSub rest pat

/-- Helper for `pySplit`: current (reversed) word accumulator. -/
def pySplitAux : Str → Str → List Str
  | [], cur => if cur = [] then [] else [cur.reverse]
  | c :: rest, cur =>
    if c.isWhitespace then
      if cur = [] then pySplitAux rest [] else cur.reverse :: pySplitAux rest []
    else pySplitAux rest (c :: cur)

/-- Python `str.split()` with no argument: split on whitespace runs,
dropping empty pieces. -/
def pySplit (s : Str) : List Str := pySplitAux s []

/-- `re.sub(r"[^a-zA-Z\s]", "", text.lower())` from `clean_and_tokenize`. -/
def cleanText (s : Str) : Str :=
  (pyLower s).filter (fun c => c.isAlpha || c.isWhitespace)

/-- The fixed stopword set of `clean_and_tokenize`. -/
def stopwords : List Str :=
  ["the", "and", "is", "in", "to", "of", "for", "on", "with", "a", "an", "as", "by", "at",
   "this", "that", "it", "be", "are", "from", "or", "we", "you", "your", "can", "our"
  ].map String.toList

/-- Output of `clean_and_tokenize` (the returned `Counter(keywords)` is not
consumed anywhere in the source and is omitted). -/
structure TokenizeOut where
  keywords : List Str
  totalWords : ℕ
  cleanedText : Str
deriving DecidableEq

/-- `clean_and_tokenize(text)`: lowercase, strip non-letters, split on
whitespace (`totalWords` counts this raw split), then filter stopwords and
words of length ≤ 2. -/
def clean_and_tokenize (text : Str) : TokenizeOut :=
  let cleaned := cleanText text
  let words := pySplit cleaned
  { keywords := words.filter (fun w => !stopwords.contains w && decide (2 < w.length))
    totalWords := words.length
    cleanedText := cleaned }

/-- All contiguous `n`-token windows, the `zip(*[words[i:] for i in range(n)])`
of `get_ngram_density`. -/
def ngramWindows (words : List Str) (n : ℕ) : List (List Str) :=
  (List.range (words.length + 1 - n)).map (fun i => (words.drop i).take n)

/-- `' '.join(gram)`. -/
def joinSpace (w : List Str) : Str := List.intercalate [' '] w

/-- The phrase list `[' '.join(gram) for gram in ngrams]`. -/
def phrasesOf (words : List Str) (n : ℕ) : List Str :=
  (ngramWindows words n).map joinSpace

/-- The distinct elements of `l` in order of first occurrence (the key order
of a Python `Counter`/`dict` built by iterating `l`). -/
def firstSeenKeys (l : List Str) : List Str :=
  l.foldl (fun acc p => if p ∈ acc then acc else acc ++ [p]) []

/-- `Counter(l).items()`: first-seen-ordered keys with their multiplicities. -/
def tally (l : List Str) : List (Str × ℕ) :=
  (firstSeenKeys l).map (fun p => (p, l.count p))

/-- Position of the first occurrence of `x` in `l` (length of `l` when
absent); used to state the first-occurrence tie-break order. -/
def firstIdx : List Str → Str → ℕ
  | [], _ => 0
  | a :: rest, x => if a = x then 0 else firstIdx rest x + 1

/-- The comparison `Counter.most_common` sorts by: descending count. -/
def byCountDesc (a b : Str × ℕ) : Prop := b.2 ≤ a.2

instance : DecidableRel byCountDesc := fun a b => Nat.decLe b.2 a.2

instance : IsTotal (Str × ℕ) byCountDesc := ⟨fun a b => Nat.le_total b.2 a.2⟩

instance : IsTrans (Str × ℕ) byCountDesc := ⟨fun _ _ _ h h' => Nat.le_trans h' h⟩

/-- `Counter.most_common(k)`: stable sort by descending count (ties keep
first-seen order), then take the first `k`. -/
def most_common (t : List (Str × ℕ)) (k : ℕ) : List (Str × ℕ) :=
  (List.insertionSort byCountDesc t).take k

/-- `get_ngram_density(words, n)`. -/
def get_ngram_density (words : List Str) (n : ℕ) : List (Str × ℕ) :=
  most_common (tally (phrasesOf words n)) 10

/-- A `<meta ...>` tag as the source queries it: its `content` attribute. -/
structure MetaTag where
  content : Option Str
deriving DecidableEq

/-- An `<img>` tag as the source queries it: its `alt` attribute. -/
structure Img where
  alt : Option Str
deriving DecidableEq

/-- The parsed document, holding exactly what `analyze_seo` reads off the
soup.  `titleTag = none` means no `<title>` element; `titleTag = some none`
means a `<title>` element whose `.string` is `None` (no single text child);
`titleTag = some (some s)` a `<title>` with `.string = s`.  The four meta
fields are the results of the four `soup.find("meta", ...)` queries, in the
source's priority order.  `textNodes` are the document's text nodes in order,
each flagged with whether it lies inside a `<script>` or `<style>` element
(BeautifulSoup's `get_text` concatenates them all regardless of the flag). -/
structure Soup where
  titleTag : Option (Option Str)
  metaNameDescription : Option MetaTag
  metaNameDescriptionCap : Option MetaTag
  metaPropOgDescription : Option MetaTag
  metaNameTwitterDescription : Option MetaTag
  h1s : List Str
  imgs : List Img
  hasCanonical : Bool
  textNodes : List (Str × Bool)
deriving DecidableEq

/-- The sentinel `"❌ No title tag"`. -/
def noTitleSentinel : Str := ("❌ No title tag".toList)

/-- The sentinel `"❌ No meta description"`. -/
def noMetaSentinel : Str := ("❌ No meta description".toList)

/-- The sentinel `"❌ No H1 tag found"`. -/
def noH1Sentinel : Str := ("❌ No H1 tag found".toList)

/-- `title = soup.title.string.strip() if soup.title else "❌ No title tag"`.
Returns `none` when the line raises (`soup.title` exists but `.string` is
`None`, so `.strip()` is an `AttributeError`). -/
def extractTitle (soup : Soup) : Option Str :=
  match soup.titleTag with
  | none => some noTitleSentinel
  | some none => none
  | some (some s) => some (pyStrip s)

/-- The `or`-chain of the four meta-description queries. -/
def metaDescTag (soup : Soup) : Option MetaTag :=
  soup.metaNameDescription <|> soup.metaNameDescriptionCap <|>
    soup.metaPropOgDescription <|> soup.metaNameTwitterDescription

/-- `meta_desc_tag["content"].strip() if meta_desc_tag and
meta_desc_tag.get("content") else "❌ No meta description"`; note an empty
`content` attribute is falsy and also falls back to the sentinel. -/
def metaDescription (soup : Soup) : Str :=
  match metaDescTag soup with
  | some tag =>
    match tag.content with
    | some c => if c = [] then noMetaSentinel else pyStrip c
    | none => noMetaSentinel
  | none => noMetaSentinel

/-- `h1_tags = [h1.get_text().strip() for h1 in soup.find_all("h1")]`. -/
def h1Tags (soup : Soup) : List Str := soup.h1s.map pyStrip

/-- `h1_info = h1_tags if h1_tags else ["❌ No H1 tag found"]`. -/
def h1Info (soup : Soup) : List Str :=
  if h1Tags soup = [] then [noH1Sentinel] else h1Tags soup

/-- `not img.get("alt")`: the `alt` attribute is absent or the empty string
(a whitespace-only `alt` is truthy and does not count). -/
def imgMissingAlt (i : Img) : Bool :=
  match i.alt with
  | none => true
  | some a => a = []

/-- `len(soup.find_all("img"))`. -/
def imagesTotal (soup : Soup) : ℕ := soup.imgs.length

/-- `len([img for img in images if not img.get("alt")])`. -/
def imagesMissingAlt (soup : Soup) : ℕ := (soup.imgs.filter imgMissingAlt).length

/-- `soup.get_text(separator=' ', strip=True)`: every text node (script and
style content included), stripped, empties dropped, joined with `' '`. -/
def getText (soup : Soup) : Str :=
  List.intercalate [' ']
    (((soup.textNodes.map (fun p => pyStrip p.1)).filter (fun t => t ≠ [])))

/-- `title_score = min(len(title), 60)`. -/
def titleScore (t : Str) : ℕ := min t.length 60

/-- `desc_score = min(len(meta_description), 160)`. -/
def descScore (d : Str) : ℕ := min d.length 160

/-- `h1_score = 10 if h1_tags else 0`. -/
def h1Score (tags : List Str) : ℕ := if tags = [] then 0 else 10

/-- `image_score = 10 if images_total == 0 else
round(((images_total - images_missing_alt) / images_total) * 10, 2)`. -/
def imageScore (t m : ℕ) : ℚ :=
  if t = 0 then 10 else round2 (((t : ℚ) - (m : ℚ)) / (t : ℚ) * 10)

/-- `keyword_in_title = 5 if keyword and keyword in title.lower() else 0`. -/
def kwInTitle (kw t : Str) : ℕ :=
  if kw ≠ [] ∧ hasSub (pyLower t) kw then 5 else 0

/-- `keyword_in_h1 = 5 if keyword and any(keyword in h.lower() for h in h1_tags) else 0`. -/
def kwInH1 (kw : Str) (tags : List Str) : ℕ :=
  if kw ≠ [] ∧ tags.any (fun h => hasSub (pyLower h) kw) then 5 else 0

/-- `keyword_in_meta = 5 if keyword and keyword in meta_description.lower() else 0`. -/
def kwInMeta (kw d : Str) : ℕ :=
  if kw ≠ [] ∧ hasSub (pyLower d) kw then 5 else 0

/-- `canonical_tag = 5 if soup.find("link", rel="canonical") else 0`. -/
def canonicalScore (soup : Soup) : ℕ := if soup.hasCanonical then 5 else 0

/-- `keyword_consistency_score = 10 if keyword_in_title and keyword_in_meta
and keyword_in_h1 else 0`. -/
def consistencyScore (kit kim kih : ℕ) : ℕ :=
  if kit ≠ 0 ∧ kim ≠ 0 ∧ kih ≠ 0 then 10 else 0

/-- The `weighted_sum` expression of `analyze_seo`. -/
def weightedSum (ts ds h1 : ℕ) (img : ℚ) (kit kim kih canon cons : ℕ) : ℚ :=
  ((ts : ℚ) / 60) * 35 + ((ds : ℚ) / 160) * 25 + (h1 : ℚ) + img +
    (kit : ℚ) + (kim : ℚ) + (kih : ℚ) + (canon : ℚ) + (cons : ℚ)

/-- `total_score = round((weighted_sum / 100) * 100, 2)`. -/
def totalScoreOf (w : ℚ) : ℚ := round2 (w / 100 * 100)

/-- The dictionary returned by `analyze_seo`. -/
structure Report where
  title : Str
  meta_description : Str
  h1_tags : List Str
  images_total : ℕ
  images_missing_alt : ℕ
  word_count : ℕ
  bigrams : List (Str × ℕ)
  trigrams : List (Str × ℕ)
  fourgrams : List (Str × ℕ)
  title_score : ℕ
  desc_score : ℕ
  total_score : ℚ
  keyword_consistent : Bool
  keyword : Str
deriving DecidableEq

/-- `analyze_seo(html, keyword)`, as a function of the parsed soup; `none`
models the `AttributeError` raised when a `<title>` tag is present but its
`.string` is `None`. -/
def analyze_seo (soup : Soup) (keyword : Str) : Option Report :=
  match extractTitle soup with
  | none => none
  | some title =>
    let md := metaDescription soup
    let tags := h1Tags soup
    let tok := clean_and_tokenize (getText soup)
    let ts := titleScore title
    let ds := descScore md
    let kit := kwInTitle keyword title
    let kih := kwInH1 keyword tags
    let kim := kwInMeta keyword md
    let canon := canonicalScore soup
    let cons := consistencyScore kit kim kih
    let w := weightedSum ts ds (h1Score tags)
      (imageScore (imagesTotal soup) (imagesMissingAlt soup)) kit kim kih canon cons
    some
      { title := title
        meta_description := md
        h1_tags := h1Info soup
        images_total := imagesTotal soup
        images_missing_alt := imagesMissingAlt soup
        word_count := tok.totalWords
        bigrams := get_ngram_density tok.keywords 2
        trigrams := get_ngram_density tok.keywords 3
        fourgrams := get_ngram_density tok.keywords 4
        title_score := ts
        desc_score := ds
        total_score := totalScoreOf w
        keyword_consistent := decide (cons = 10)
        keyword := keyword }

/-- The `weighted_sum` of `analyze_seo` as a function of the soup, the
keyword, and the extracted title, composed exactly as the source composes
its intermediate variables. -/
def reportWeightedSum (soup : Soup) (kw t : Str) : ℚ :=
  weightedSum (titleScore t) (descScore (metaDescription soup)) (h1Score (h1Tags soup))
    (imageScore (imagesTotal soup) (imagesMissingAlt soup))
    (kwInTitle kw t) (kwInMeta kw (metaDescription soup)) (kwInH1 kw (h1Tags soup))
    (canonicalScore soup)
    (consistencyScore (kwInTitle kw t) (kwInMeta kw (metaDescription soup))
      (kwInH1 kw (h1Tags soup)))

/-- Modelled from the spec: helper for the occurrence count — Python
`str.count` scans left to right and skips the length of the pattern after
each match (non-overlapping matches).  The fuel argument is the length of
the scanned text. -/
def countOccAux : ℕ → Str → Str → ℕ
  | 0, _, _ => 0
  | fuel + 1, s, pat =>
    match s with
    | [] => 0
    | _ :: rest =>
      if pat.isPrefixOf s then countOccAux fuel (s.drop pat.length) pat + 1
      else countOccAux fuel rest pat

/-- Modelled from the spec: `occurrences` — "count of non-overlapping
substring matches of target phrase inside the cleaned text".  The source
computes `cleaned_text` in `clean_and_tokenize` but never consumes it; the
occurrence count itself is absent from the source file. -/
def occurrencesOf (cleaned pat : Str) : ℕ := countOccAux cleaned.length cleaned pat

/-- Modelled from the spec: `densityPercent = round(occurrences /
totalWordCount * 100, 2)`, and `0` when `totalWordCount == 0`; absent from
the source file. -/
def densityPercent (occ total : ℕ) : ℚ :=
  if total = 0 then 0 else round2 ((occ : ℚ) / (total : ℚ) * 100)

/-- Modelled from the spec: the body text as the spec describes it —
"concatenation of all visible text nodes, joined with single spaces …
must not include script/style content" — for comparison with `getText`. -/
def specBodyText (soup : Soup) : Str :=
  List.intercalate [' ']
    (((soup.textNodes.filter (fun p => !p.2)).map (fun p => pyStrip p.1)).filter
      (fun t => t ≠ []))

/-- Modelled from the spec: an image is "missing alt" when its `alt`
attribute is absent, empty, or whitespace-only — for comparison with
`imgMissingAlt`. -/
def specImgMissingAlt (i : Img) : Bool :=
  match i.alt with
  | none => true
  | some a => pyStrip a = []

/-- A soup with no elements at all (in particular no `<title>`). -/
def emptySoup : Soup :=
  { titleTag := none, metaNameDescription := none, metaNameDescriptionCap := none
    metaPropOgDescription := none, metaNameTwitterDescription := none
    h1s := [], imgs := [], hasCanonical := false, textNodes := [] }

/-- A soup for `<title></title>`: the tag exists but `.string` is `None`. -/
def crashSoup : Soup :=
  { titleTag := some none, metaNameDescription := none, metaNameDescriptionCap := none
    metaPropOgDescription := none, metaNameTwitterDescription := none
    h1s := [], imgs := [], hasCanonical := false, textNodes := [] }

/-- A soup in which every scored signal is maximal: a 60-character title
containing the keyword, a 160-character meta description containing it, an
H1 containing it, no images, and a canonical link. -/
def maxSoup : Soup :=
  { titleTag := some (some (List.replicate 60 'k'))
    metaNameDescription := some ⟨some (List.replicate 160 'k')⟩
    metaNameDescriptionCap := none
    metaPropOgDescription := none, metaNameTwitterDescription := none
    h1s := [['k']], imgs := [], hasCanonical := true, textNodes := [] }

/-- A soup whose every weighted component is zero: whitespace-only title
text, whitespace-only meta-description content, no H1, one image without
`alt`, no canonical link. -/
def zeroSoup : Soup :=
  { titleTag := some (some [' '])
    metaNameDescription := some ⟨some [' ']⟩
    metaNameDescriptionCap := none
    metaPropOgDescription := none, metaNameTwitterDescription := none
    h1s := [], imgs := [⟨none⟩], hasCanonical := false, textNodes := [] }

/-- A soup with one script text node and one visible text node. -/
def scriptSoup : Soup :=
  { titleTag := some (some ("t".toList)), metaNameDescription := none
    metaNameDescriptionCap := none
    metaPropOgDescription := none, metaNameTwitterDescription := none
    h1s := [], imgs := [], hasCanonical := false
    textNodes := [(("alert(1)".toList), true), (("hello".toList), false)] }

/-- A soup with a single image whose `alt` attribute is a single space. -/
def altWsSoup : Soup :=
  { titleTag := some (some ("t".toList)), metaNameDescription := none
    metaNameDescriptionCap := none
    metaPropOgDescription := none, metaNameTwitterDescription := none
    h1s := [], imgs := [⟨some [' ']⟩], hasCanonical := false, textNodes := [] }

/-- A small token sequence for exercising `get_ngram_density`. -/
def sampleWords : List Str := ["seo", "tools", "best", "seo", "tools", "seo"].map String.toList

/-- A soup whose title, meta description and H1 all contain `"k"`. -/
def consistentSoup : Soup :=
  { titleTag := some (some ("k".toList))
    metaNameDescription := some ⟨some ("k".toList)⟩
    metaNameDescriptionCap := none
    metaPropOgDescription := none, metaNameTwitterDescription := none
    h1s := [("k".toList)], imgs := [], hasCanonical := false, textNodes := [] }

lemma rhe_floor_le (x : ℚ) : ⌊x⌋ ≤ rhe x := by
  unfold rhe; split_ifs <;> omega

lemma rhe_le_floor_add_one (x : ℚ) : rhe x ≤ ⌊x⌋ + 1 := by
  unfold rhe; split_ifs <;> omega

lemma rhe_mono {x y : ℚ} (h : x ≤ y) : rhe x ≤ rhe y := by
  have hf : ⌊x⌋ ≤ ⌊y⌋ := Int.floor_le_floor h
  rcases lt_or_eq_of_le hf with hlt | heq
  · have h1 := rhe_le_floor_add_one x
    have h2 := rhe_floor_le y
    omega
  · unfold rhe
    rw [heq]
    split_ifs <;> first | omega | (exfalso; linarith)

lemma rhe_intCast (n : ℤ) : rhe (n : ℚ) = n := by
  unfold rhe
  rw [Int.floor_intCast]
  norm_num

lemma rhe_eq_of_lt_half {f : ℤ} {x : ℚ} (h1 : (f : ℚ) ≤ x) (h2 : x - f < 1/2) :
    rhe x = f := by
  have hfl : ⌊x⌋ = f := Int.floor_eq_iff.mpr ⟨h1, by linarith⟩
  unfold rhe
  rw [hfl, if_pos h2]

lemma rhe_eq_of_half_lt {f : ℤ} {x : ℚ} (h1 : 1/2 < x - f) (h2 : x < f + 1) :
    rhe x = f + 1 := by
  have hfl : ⌊x⌋ = f := Int.floor_eq_iff.mpr ⟨by linarith, by linarith⟩
  unfold rhe
  rw [hfl, if_neg (by linarith), if_pos h1]

lemma round2_mono {x y : ℚ} (h : x ≤ y) : round2 x ≤ round2 y := by
  unfold round2
  have h1 := rhe_mono (by linarith : x * 100 ≤ y * 100)
  have h2 : ((rhe (x * 100) : ℤ) : ℚ) ≤ ((rhe (y * 100) : ℤ) : ℚ) := by exact_mod_cast h1
  linarith

lemma round2_intCast (n : ℤ) : round2 (n : ℚ) = n := by
  unfold round2
  rw [show ((n : ℚ) * 100) = (((n * 100 : ℤ)) : ℚ) by push_cast; ring, rhe_intCast]
  push_cast
  field_simp

lemma round2_zero : round2 0 = 0 := by
  have h := round2_intCast 0
  norm_num at h
  exact h

lemma round2_ten : round2 10 = 10 := by
  have := round2_intCast 10
  push_cast at this
  exact this

lemma round2_oneten : round2 110 = 110 := by
  have := round2_intCast 110
  push_cast at this
  exact this

lemma titleScore_le (t : Str) : titleScore t ≤ 60 := min_le_right _ _

lemma descScore_le (d : Str) : descScore d ≤ 160 := min_le_right _ _

lemma h1Score_le (tags : List Str) : h1Score tags ≤ 10 := by
  unfold h1Score; split_ifs <;> omega

lemma kwInTitle_le (kw t : Str) : kwInTitle kw t ≤ 5 := by
  unfold kwInTitle; split_ifs <;> omega

lemma kwInMeta_le (kw d : Str) : kwInMeta kw d ≤ 5 := by
  unfold kwInMeta; split_ifs <;> omega

lemma kwInH1_le (kw : Str) (tags : List Str) : kwInH1 kw tags ≤ 5 := by
  unfold kwInH1; split_ifs <;> omega

lemma canonicalScore_le (soup : Soup) : canonicalScore soup ≤ 5 := by
  unfold canonicalScore; split_ifs <;> omega

lemma consistencyScore_le (kit kim kih : ℕ) : consistencyScore kit kim kih ≤ 10 := by
  unfold consistencyScore; split_ifs <;> omega

lemma imagesMissingAlt_le (soup : Soup) : imagesMissingAlt soup ≤ imagesTotal soup :=
  List.length_filter_le _ _

lemma imageScore_nonneg {t m : ℕ} (h : m ≤ t) : 0 ≤ imageScore t m := by
  unfold imageScore
  split_ifs with h0
  · norm_num
  · have ht : (0 : ℚ) < t := by
      exact_mod_cast Nat.pos_of_ne_zero h0
    have hm : (m : ℚ) ≤ t := by exact_mod_cast h
    have hv : (0 : ℚ) ≤ ((t : ℚ) - m) / t * 10 :=
      mul_nonneg (div_nonneg (by linarith) ht.le) (by norm_num)
    calc (0 : ℚ) = round2 0 := round2_zero.symm
      _ ≤ _ := round2_mono hv

lemma imageScore_le_ten (t m : ℕ) : imageScore t m ≤ 10 := by
  unfold imageScore
  split_ifs with h0
  · exact le_refl 10
  · have ht : (0 : ℚ) < t := by
      exact_mod_cast Nat.pos_of_ne_zero h0
    have hm : (0 : ℚ) ≤ m := by positivity
    have hd : ((t : ℚ) - m) / t ≤ 1 := by
      rw [div_le_one ht]; linarith
    have hv : ((t : ℚ) - m) / t * 10 ≤ 10 := by linarith
    calc round2 _ ≤ round2 10 := round2_mono hv
      _ = 10 := round2_ten

lemma weightedSum_nonneg {ts ds h1 kit kim kih canon cons : ℕ} {img : ℚ}
    (himg : 0 ≤ img) : 0 ≤ weightedSum ts ds h1 img kit kim kih canon cons := by
  unfold weightedSum
  have c1 : (0 : ℚ) ≤ (ts : ℚ) / 60 * 35 := by positivity
  have c2 : (0 : ℚ) ≤ (ds : ℚ) / 160 * 25 := by positivity
  have c3 : (0 : ℚ) ≤ (h1 : ℚ) := by positivity
  have c4 : (0 : ℚ) ≤ (kit : ℚ) := by positivity
  have c5 : (0 : ℚ) ≤ (kim : ℚ) := by positivity
  have c6 : (0 : ℚ) ≤ (kih : ℚ) := by positivity
  have c7 : (0 : ℚ) ≤ (canon : ℚ) := by positivity
  have c8 : (0 : ℚ) ≤ (cons : ℚ) := by positivity
  linarith

lemma weightedSum_le {ts ds h1 kit kim kih canon cons : ℕ} {img : ℚ}
    (hts : ts ≤ 60) (hds : ds ≤ 160) (hh1 : h1 ≤ 10) (himg : img ≤ 10)
    (hkit : kit ≤ 5) (hkim : kim ≤ 5) (hkih : kih ≤ 5)
    (hcanon : canon ≤ 5) (hcons : cons ≤ 10) :
    weightedSum ts ds h1 img kit kim kih canon cons ≤ 110 := by
  unfold weightedSum
  have b1 : (ts : ℚ) ≤ 60 := by exact_mod_cast hts
  have b2 : (ds : ℚ) ≤ 160 := by exact_mod_cast hds
  have b3 : (h1 : ℚ) ≤ 10 := by exact_mod_cast hh1
  have b4 : (kit : ℚ) ≤ 5 := by exact_mod_cast hkit
  have b5 : (kim : ℚ) ≤ 5 := by exact_mod_cast hkim
  have b6 : (kih : ℚ) ≤ 5 := by exact_mod_cast hkih
  have b7 : (canon : ℚ) ≤ 5 := by exact_mod_cast hcanon
  have b8 : (cons : ℚ) ≤ 10 := by exact_mod_cast hcons
  linarith

lemma totalScoreOf_eq_round2 (w : ℚ) : totalScoreOf w = round2 w := by
  unfold totalScoreOf
  rw [div_mul_cancel₀]
  norm_num

lemma analyze_seo_eq_some {soup : Soup} {kw t : Str} (h : extractTitle soup = some t) :
    analyze_seo soup kw = some
      { title := t
        meta_description := metaDescription soup
        h1_tags := h1Info soup
        images_total := imagesTotal soup
        images_missing_alt := imagesMissingAlt soup
        word_count := (clean_and_tokenize (getText soup)).totalWords
        bigrams := get_ngram_density (clean_and_tokenize (getText soup)).keywords 2
        trigrams := get_ngram_density (clean_and_tokenize (getText soup)).keywords 3
        fourgrams := get_ngram_density (clean_and_tokenize (getText soup)).keywords 4
        title_score := titleScore t
        desc_score := descScore (metaDescription soup)
        total_score := totalScoreOf (reportWeightedSum soup kw t)
        keyword_consistent := decide (consistencyScore (kwInTitle kw t)
          (kwInMeta kw (metaDescription soup)) (kwInH1 kw (h1Tags soup)) = 10)
        keyword := kw } := by
  unfold analyze_seo
  rw [h]
  rfl

/-- C1 (amended): whenever `analyze_seo` returns a report (the title
extraction yields `t`), `totalScore = round(weightedSum, 2)` and the total
score lies between 0 and 110 — the weighted components sum to 110, not 100,
when all signals are maximal. -/
theorem C1_totalScore_formula_and_range (soup : Soup) (kw t : Str)
    (h : extractTitle soup = some t) :
    (analyze_seo soup kw).map Report.total_score =
      some (round2 (reportWeightedSum soup kw t)) ∧
    0 ≤ round2 (reportWeightedSum soup kw t) ∧
    round2 (reportWeightedSum soup kw t) ≤ 110 := by
  refine ⟨?_, ?_, ?_⟩
  · rw [analyze_seo_eq_some h]
    simp [totalScoreOf_eq_round2]
  · have h0 : (0 : ℚ) ≤ reportWeightedSum soup kw t := by
      unfold reportWeightedSum
      exact weightedSum_nonneg (imageScore_nonneg (imagesMissingAlt_le soup))
    calc (0 : ℚ) = round2 0 := round2_zero.symm
      _ ≤ _ := round2_mono h0
  · have hle : reportWeightedSum soup kw t ≤ 110 := by
      unfold reportWeightedSum
      exact weightedSum_le (titleScore_le t) (descScore_le _) (h1Score_le _)
        (imageScore_le_ten _ _) (kwInTitle_le _ _) (kwInMeta_le _ _)
        (kwInH1_le _ _) (canonicalScore_le _) (consistencyScore_le _ _ _)
    calc round2 (reportWeightedSum soup kw t) ≤ round2 110 := round2_mono hle
      _ = 110 := round2_oneten

/-- Witness for C1: the range theorem applied to the empty soup. -/
theorem C1_witness :
    extractTitle emptySoup = some noTitleSentinel ∧
    ((analyze_seo emptySoup []).map Report.total_score =
        some (round2 (reportWeightedSum emptySoup [] noTitleSentinel)) ∧
      0 ≤ round2 (reportWeightedSum emptySoup [] noTitleSentinel) ∧
      round2 (reportWeightedSum emptySoup [] noTitleSentinel) ≤ 110) :=
  ⟨by decide, C1_totalScore_formula_and_range emptySoup [] noTitleSentinel (by decide)⟩

/-- C1 counterexample: with every signal maximal the total score is 110,
so it does not lie in the range 0 to 100 claimed. -/
theorem C1_counterexample :
    (analyze_seo maxSoup ['k']).map Report.total_score = some 110 ∧
    ¬ ((110 : ℚ) ≤ 100) := by
  constructor
  · have h : extractTitle maxSoup = some (List.replicate 60 'k') := by decide
    have hW : reportWeightedSum maxSoup ['k'] (List.replicate 60 'k') = 110 := by
      unfold reportWeightedSum
      rw [show titleScore (List.replicate 60 'k') = 60 from by decide,
        show descScore (metaDescription maxSoup) = 160 from by decide,
        show h1Score (h1Tags maxSoup) = 10 from by decide,
        show kwInTitle ['k'] (List.replicate 60 'k') = 5 from by decide,
        show kwInMeta ['k'] (metaDescription maxSoup) = 5 from by decide,
        show kwInH1 ['k'] (h1Tags maxSoup) = 5 from by decide,
        show canonicalScore maxSoup = 5 from by decide,
        show imagesTotal maxSoup = 0 from by decide,
        show imagesMissingAlt maxSoup = 0 from by decide,
        show consistencyScore 5 5 5 = 10 from by decide]
      unfold weightedSum imageScore
      norm_num
    rw [analyze_seo_eq_some h]
    show some (totalScoreOf (reportWeightedSum maxSoup ['k'] (List.replicate 60 'k'))) =
      some 110
    rw [totalScoreOf_eq_round2, hW, round2_oneten]
  · norm_num

/-- C2 (amended): for every soup with no `<title>` element, the report's
title is the sentinel string `"❌ No title tag"` — a non-empty string, not a
null value — and the title score is 14, the sentinel's length. -/
theorem C2_no_title_sentinel (soup : Soup) (kw : Str) (h : soup.titleTag = none) :
    (analyze_seo soup kw).map Report.title = some noTitleSentinel ∧
    (analyze_seo soup kw).map Report.title_score = some 14 := by
  have ht : extractTitle soup = some noTitleSentinel := by
    unfold extractTitle; rw [h]
  rw [analyze_seo_eq_some ht]
  constructor
  · simp
  · simp [show titleScore noTitleSentinel = 14 from by decide]

/-- Witness for C2 at the empty soup. -/
theorem C2_witness :
    emptySoup.titleTag = none ∧
    ((analyze_seo emptySoup []).map Report.title = some noTitleSentinel ∧
      (analyze_seo emptySoup []).map Report.title_score = some 14) :=
  ⟨rfl, C2_no_title_sentinel emptySoup [] rfl⟩

/-- C2 counterexample: on a soup without a `<title>` element the extracted
title is the non-empty sentinel string and the title score is 14, not 0. -/
theorem C2_counterexample :
    (analyze_seo emptySoup []).map Report.title = some noTitleSentinel ∧
    noTitleSentinel ≠ [] ∧
    (analyze_seo emptySoup []).map Report.title_score = some 14 ∧
    (14 : ℕ) ≠ 0 := by decide

/-- C3: the extractor is not exception-free — on `<title></title>` (title
tag present, `.string` is `None`) the source's `.strip()` call raises an
`AttributeError`, modelled by `analyze_seo` returning `none`. -/
theorem C3_crash_on_empty_title_tag : analyze_seo crashSoup [] = none := by decide

lemma weightedSum_ge_base {ts ds h1 kit kim kih canon cons : ℕ} {img : ℚ}
    (himg : 0 ≤ img) :
    ((ts : ℚ) / 60) * 35 + ((ds : ℚ) / 160) * 25 ≤
      weightedSum ts ds h1 img kit kim kih canon cons := by
  unfold weightedSum
  have c3 : (0 : ℚ) ≤ (h1 : ℚ) := by positivity
  have c4 : (0 : ℚ) ≤ (kit : ℚ) := by positivity
  have c5 : (0 : ℚ) ≤ (kim : ℚ) := by positivity
  have c6 : (0 : ℚ) ≤ (kih : ℚ) := by positivity
  have c7 : (0 : ℚ) ≤ (canon : ℚ) := by positivity
  have c8 : (0 : ℚ) ≤ (cons : ℚ) := by positivity
  linarith

/-- C9 (amended): when the `<title>` element is absent and none of the four
meta-description queries matches, the sentinel strings (of lengths 14 and 21,
not 22) are substituted before length scoring, so `titleScore = 14`,
`descScore = 21`, and the total score is at least
`round((14/60)*35 + (21/160)*25, 2) = 11.45`; over arbitrary inputs, however,
the total score can be 0 (see the counterexample). -/
theorem C9_sentinel_scores_floor (soup : Soup) (kw : Str)
    (h1 : soup.titleTag = none) (h2 : metaDescTag soup = none) :
    (analyze_seo soup kw).map Report.title_score = some 14 ∧
    (analyze_seo soup kw).map Report.desc_score = some 21 ∧
    (analyze_seo soup kw).map Report.total_score =
      some (round2 (reportWeightedSum soup kw noTitleSentinel)) ∧
    (1145/100 : ℚ) ≤ round2 (reportWeightedSum soup kw noTitleSentinel) := by
  have ht : extractTitle soup = some noTitleSentinel := by
    unfold extractTitle; rw [h1]
  have hmd : metaDescription soup = noMetaSentinel := by
    unfold metaDescription; rw [h2]
  refine ⟨?_, ?_, ?_, ?_⟩
  · rw [analyze_seo_eq_some ht]
    simp [show titleScore noTitleSentinel = 14 from by decide]
  · rw [analyze_seo_eq_some ht]
    simp [hmd, show descScore noMetaSentinel = 21 from by decide]
  · rw [analyze_seo_eq_some ht]
    simp [totalScoreOf_eq_round2]
  · have himg : 0 ≤ imageScore (imagesTotal soup) (imagesMissingAlt soup) :=
      imageScore_nonneg (imagesMissingAlt_le soup)
    have hW : (1099/96 : ℚ) ≤ reportWeightedSum soup kw noTitleSentinel := by
      unfold reportWeightedSum
      refine le_trans ?_ (weightedSum_ge_base himg)
      rw [hmd, show titleScore noTitleSentinel = 14 from by decide,
        show descScore noMetaSentinel = 21 from by decide]
      norm_num
    have hr : round2 (1099/96 : ℚ) = 1145/100 := by
      unfold round2
      rw [show (1099/96 : ℚ) * 100 = 109900/96 by norm_num]
      rw [rhe_eq_of_half_lt (f := 1144) (by norm_num) (by norm_num)]
      norm_num
    calc (1145/100 : ℚ) = round2 (1099/96) := hr.symm
      _ ≤ round2 (reportWeightedSum soup kw noTitleSentinel) := round2_mono hW

/-- Witness for C9 at the empty soup. -/
theorem C9_witness :
    emptySoup.titleTag = none ∧ metaDescTag emptySoup = none ∧
    ((analyze_seo emptySoup []).map Report.title_score = some 14 ∧
      (analyze_seo emptySoup []).map Report.desc_score = some 21 ∧
      (analyze_seo emptySoup []).map Report.total_score =
        some (round2 (reportWeightedSum emptySoup [] noTitleSentinel)) ∧
      (1145/100 : ℚ) ≤ round2 (reportWeightedSum emptySoup [] noTitleSentinel)) :=
  ⟨rfl, rfl, C9_sentinel_scores_floor emptySoup [] rfl rfl⟩

/-- C9 counterexample: a soup with whitespace-only title text,
whitespace-only meta-description content, no H1, one image without alt text
and no canonical link scores exactly 0 — the total score is neither at least
11.6 nor always nonzero. -/
theorem C9_counterexample :
    (analyze_seo zeroSoup []).map Report.total_score = some 0 ∧
    ¬ ((58/5 : ℚ) ≤ 0) := by
  constructor
  · have h : extractTitle zeroSoup = some [] := by decide
    have hW : reportWeightedSum zeroSoup [] [] = 0 := by
      unfold reportWeightedSum
      rw [show titleScore [] = 0 from by decide,
        show descScore (metaDescription zeroSoup) = 0 from by decide,
        show h1Score (h1Tags zeroSoup) = 0 from by decide,
        show kwInTitle [] [] = 0 from by decide,
        show kwInMeta [] (metaDescription zeroSoup) = 0 from by decide,
        show kwInH1 [] (h1Tags zeroSoup) = 0 from by decide,
        show canonicalScore zeroSoup = 0 from by decide,
        show imagesTotal zeroSoup = 1 from by decide,
        show imagesMissingAlt zeroSoup = 1 from by decide,
        show consistencyScore 0 0 0 = 0 from by decide]
      unfold weightedSum imageScore
      norm_num [round2_zero]
    rw [analyze_seo_eq_some h]
    show some (totalScoreOf (reportWeightedSum zeroSoup [] [])) = some 0
    rw [totalScoreOf_eq_round2, hW, round2_zero]
  · norm_num

lemma kwInTitle_ne_zero {kw t : Str} (h : kwInTitle kw t ≠ 0) :
    kwInTitle kw t = 5 ∧ kw ≠ [] := by
  unfold kwInTitle at h ⊢
  split_ifs at h ⊢ with hc
  · exact ⟨rfl, hc.1⟩
  · exact absurd rfl h

lemma kwInMeta_ne_zero {kw d : Str} (h : kwInMeta kw d ≠ 0) :
    kwInMeta kw d = 5 ∧ kw ≠ [] := by
  unfold kwInMeta at h ⊢
  split_ifs at h ⊢ with hc
  · exact ⟨rfl, hc.1⟩
  · exact absurd rfl h

lemma kwInH1_ne_zero {kw : Str} {tags : List Str} (h : kwInH1 kw tags ≠ 0) :
    kwInH1 kw tags = 5 ∧ kw ≠ [] := by
  unfold kwInH1 at h ⊢
  split_ifs at h ⊢ with hc
  · exact ⟨rfl, hc.1⟩
  · exact absurd rfl h

/-- C10: if the report's `keyword_consistent` flag is true then the keyword
is non-empty, each of the three 5-point placement bonuses was awarded, and
the keyword-related contribution to the weighted sum is 5 + 5 + 5 + 10 = 25. -/
theorem C10_consistent_implies_placements (soup : Soup) (kw t : Str)
    (h : extractTitle soup = some t)
    (hc : (analyze_seo soup kw).map Report.keyword_consistent = some true) :
    kw ≠ [] ∧ kwInTitle kw t = 5 ∧ kwInMeta kw (metaDescription soup) = 5 ∧
    kwInH1 kw (h1Tags soup) = 5 ∧
    kwInTitle kw t + kwInMeta kw (metaDescription soup) + kwInH1 kw (h1Tags soup) +
      consistencyScore (kwInTitle kw t) (kwInMeta kw (metaDescription soup))
        (kwInH1 kw (h1Tags soup)) = 25 := by
  rw [analyze_seo_eq_some h] at hc
  simp only [Option.map_some', Option.some.injEq, decide_eq_true_eq] at hc
  have hcons := hc
  unfold consistencyScore at hcons
  split_ifs at hcons with hcnd
  obtain ⟨h1', h2', h3'⟩ := hcnd
  obtain ⟨e1, hk⟩ := kwInTitle_ne_zero h1'
  obtain ⟨e2, -⟩ := kwInMeta_ne_zero h2'
  obtain ⟨e3, -⟩ := kwInH1_ne_zero h3'
  refine ⟨hk, e1, e2, e3, ?_⟩
  rw [e1, e2, e3]
  rw [show consistencyScore 5 5 5 = 10 from by decide]

/-- Witness for C10 at a soup whose title, meta description and H1 all
contain the keyword. -/
theorem C10_witness :
    extractTitle consistentSoup = some ("k".toList) ∧
    (analyze_seo consistentSoup ("k".toList)).map Report.keyword_consistent = some true ∧
    (("k".toList) ≠ [] ∧ kwInTitle ("k".toList) ("k".toList) = 5 ∧
      kwInMeta ("k".toList) (metaDescription consistentSoup) = 5 ∧
      kwInH1 ("k".toList) (h1Tags consistentSoup) = 5 ∧
      kwInTitle ("k".toList) ("k".toList) +
        kwInMeta ("k".toList) (metaDescription consistentSoup) +
        kwInH1 ("k".toList) (h1Tags consistentSoup) +
        consistencyScore (kwInTitle ("k".toList) ("k".toList))
          (kwInMeta ("k".toList) (metaDescription consistentSoup))
          (kwInH1 ("k".toList) (h1Tags consistentSoup)) = 25) :=
  ⟨by decide, by decide,
    C10_consistent_implies_placements consistentSoup ("k".toList) ("k".toList)
      (by decide) (by decide)⟩

lemma infix_of_infix_append {x l₂ : Str} (l₁ : Str) (h : x <:+: l₂) :
    x <:+: l₁ ++ l₂ := by
  obtain ⟨s, t, e⟩ := h
  exact ⟨l₁ ++ s, t, by rw [← e]; simp [List.append_assoc]⟩

lemma mem_infix_intercalate {x : Str} : ∀ {l : List Str}, x ∈ l →
    x <:+: List.intercalate [' '] l := by
  intro l
  induction l with
  | nil => intro h; cases h
  | cons a rest ih =>
    intro h
    rcases List.mem_cons.mp h with rfl | hr
    · cases rest with
      | nil => simp [List.intercalate]
      | cons b t =>
        have : List.intercalate [' '] (x :: b :: t) =
            x ++ ([' '] ++ List.intercalate [' '] (b :: t)) := by
          simp [List.intercalate, List.intersperse]
        rw [this]
        exact ((List.prefix_append x _).isInfix)
    · cases rest with
      | nil => cases hr
      | cons b t =>
        have : List.intercalate [' '] (a :: b :: t) =
            a ++ ([' '] ++ List.intercalate [' '] (b :: t)) := by
          simp [List.intercalate, List.intersperse]
        rw [this]
        exact infix_of_infix_append a (infix_of_infix_append [' '] (ih hr))

/-- C4 (amended): the body text handed to tokenization is every text node of
the document — script and style content included — stripped, with empties
dropped, joined by single spaces; in particular every text node with
non-empty stripped content, visible or not, occurs as a substring of the
body text. -/
theorem C4_body_text_all_nodes (soup : Soup) (p : Str × Bool)
    (hp : p ∈ soup.textNodes) (hnz : pyStrip p.1 ≠ []) :
    pyStrip p.1 <:+: getText soup ∧
    getText soup = List.intercalate [' ']
      ((soup.textNodes.map (fun q => pyStrip q.1)).filter (fun t => t ≠ [])) := by
  refine ⟨?_, rfl⟩
  apply mem_infix_intercalate
  rw [List.mem_filter]
  exact ⟨List.mem_map_of_mem _ hp, decide_eq_true hnz⟩

/-- Witness for C4 at a soup holding a script text node. -/
theorem C4_witness :
    ((("alert(1)".toList), true) ∈ scriptSoup.textNodes ∧
      pyStrip ("alert(1)".toList) ≠ []) ∧
    (pyStrip ("alert(1)".toList) <:+: getText scriptSoup ∧
      getText scriptSoup = List.intercalate [' ']
        ((scriptSoup.textNodes.map (fun q => pyStrip q.1)).filter (fun t => t ≠ []))) :=
  ⟨⟨by decide, by decide⟩,
    C4_body_text_all_nodes scriptSoup (("alert(1)".toList), true) (by decide) (by decide)⟩

/-- C4 counterexample: a script text node's content ends up in the extracted
body text (and in the word count), where the claim says it never does. -/
theorem C4_counterexample :
    getText scriptSoup = ("alert(1) hello".toList) ∧
    specBodyText scriptSoup = ("hello".toList) ∧
    getText scriptSoup ≠ specBodyText scriptSoup ∧
    (analyze_seo scriptSoup []).map Report.word_count = some 2 := by decide

lemma imgMissingAlt_eq (i : Img) :
    imgMissingAlt i = decide (i.alt = none ∨ i.alt = some []) := by
  rcases i with ⟨alt⟩
  cases alt <;> simp [imgMissingAlt]

/-- C5 (amended): `imagesTotal` counts all `<img>` elements, and an image is
counted as missing alt text iff its `alt` attribute is absent or the empty
string — a whitespace-only `alt` is truthy in the source's `not img.get("alt")`
test and is not counted. -/
theorem C5_image_counts (soup : Soup) (kw t : Str) (h : extractTitle soup = some t) :
    (analyze_seo soup kw).map Report.images_total = some soup.imgs.length ∧
    (analyze_seo soup kw).map Report.images_missing_alt =
      some ((soup.imgs.filter (fun i => i.alt = none ∨ i.alt = some [])).length) := by
  rw [analyze_seo_eq_some h]
  constructor
  · simp [imagesTotal]
  · simp only [Option.map_some', Option.some.injEq]
    unfold imagesMissingAlt
    rw [List.filter_congr (fun x _ => imgMissingAlt_eq x)]

/-- Witness for C5 at a soup with one whitespace-alt image. -/
theorem C5_witness :
    extractTitle altWsSoup = some ("t".toList) ∧
    ((analyze_seo altWsSoup []).map Report.images_total = some altWsSoup.imgs.length ∧
      (analyze_seo altWsSoup []).map Report.images_missing_alt =
        some ((altWsSoup.imgs.filter (fun i => i.alt = none ∨ i.alt = some [])).length)) :=
  ⟨by decide, C5_image_counts altWsSoup [] ("t".toList) (by decide)⟩

/-- C5 counterexample: an image whose `alt` is a single space is not counted
as missing by the source, but the claim says whitespace-only alt counts. -/
theorem C5_counterexample :
    (analyze_seo altWsSoup []).map Report.images_missing_alt = some 0 ∧
    (altWsSoup.imgs.filter specImgMissingAlt).length = 1 ∧
    (0 : ℕ) ≠ 1 := by decide

/-- C6: on scenario B the raw split has 9 words, the cleaned text is
unchanged, the non-overlapping substring count of "seo tools" is 2, and the
density is `round(2/9*100, 2) = 22.22`; a zero word count yields density 0. -/
theorem C6_occurrences_density :
    (clean_and_tokenize ("seo tools are the best seo tools for seo".toList)).totalWords = 9 ∧
    (clean_and_tokenize ("seo tools are the best seo tools for seo".toList)).cleanedText =
      ("seo tools are the best seo tools for seo".toList) ∧
    occurrencesOf ("seo tools are the best seo tools for seo".toList) ("seo tools".toList) = 2 ∧
    densityPercent 2 9 = 2222/100 ∧
    (∀ occ : ℕ, densityPercent occ 0 = 0) := by
  refine ⟨by decide, by decide, by decide, ?_, fun occ => by simp [densityPercent]⟩
  unfold densityPercent
  rw [if_neg (by norm_num)]
  unfold round2
  rw [show ((2 : ℕ) : ℚ) / ((9 : ℕ) : ℚ) * 100 * 100 = 20000/9 by norm_num]
  rw [rhe_eq_of_lt_half (f := 2222) (by norm_num) (by norm_num)]
  norm_num

lemma hasSub_iff (s pat : Str) : hasSub s pat = true ↔ pat <:+: s := by
  induction s with
  | nil =>
    cases pat with
    | nil => simp [hasSub, List.isPrefixOf]
    | cons c cs => simp [hasSub, List.isPrefixOf]
  | cons c rest ih =>
    unfold hasSub
    rw [List.infix_cons_iff]
    split_ifs with hp
    · exact ⟨fun _ => Or.inl (List.isPrefixOf_iff_prefix.mp hp), fun _ => rfl⟩
    · rw [ih]
      have hnp : ¬ pat <+: c :: rest := fun hpre => hp (List.isPrefixOf_iff_prefix.mpr hpre)
      exact ⟨fun hi => Or.inr hi, fun ho => ho.resolve_left hnp⟩

/-- C7 (amended): for a non-empty keyword the placement bonuses are awarded
exactly when the keyword is a substring of the lowercased stored title, meta
description, or some H1 text — but an absent title or meta description is
stored as its sentinel string, so keywords occurring in the sentinel text do
match even though the element is absent. -/
theorem C7_placement_flags (kw t md : Str) (tags : List Str) (hk : kw ≠ []) :
    (kwInTitle kw t = 5 ↔ kw <:+: pyLower t) ∧
    (kwInMeta kw md = 5 ↔ kw <:+: pyLower md) ∧
    (kwInH1 kw tags = 5 ↔ ∃ h ∈ tags, kw <:+: pyLower h) ∧
    (∀ soup : Soup, soup.titleTag = none → extractTitle soup = some noTitleSentinel) ∧
    (∀ soup : Soup, metaDescTag soup = none → metaDescription soup = noMetaSentinel) := by
  refine ⟨?_, ?_, ?_, ?_, ?_⟩
  · unfold kwInTitle
    split_ifs with hc
    · exact ⟨fun _ => (hasSub_iff _ _).mp hc.2, fun _ => rfl⟩
    · exact ⟨fun h0 => absurd h0 (by norm_num),
        fun hi => absurd ⟨hk, (hasSub_iff _ _).mpr hi⟩ hc⟩
  · unfold kwInMeta
    split_ifs with hc
    · exact ⟨fun _ => (hasSub_iff _ _).mp hc.2, fun _ => rfl⟩
    · exact ⟨fun h0 => absurd h0 (by norm_num),
        fun hi => absurd ⟨hk, (hasSub_iff _ _).mpr hi⟩ hc⟩
  · unfold kwInH1
    split_ifs with hc
    · refine ⟨fun _ => ?_, fun _ => rfl⟩
      obtain ⟨-, hany⟩ := hc
      rw [List.any_eq_true] at hany
      obtain ⟨x, hx, hs⟩ := hany
      exact ⟨x, hx, (hasSub_iff _ _).mp hs⟩
    · refine ⟨fun h0 => absurd h0 (by norm_num), fun he => ?_⟩
      obtain ⟨x, hx, hi⟩ := he
      exact absurd ⟨hk, List.any_eq_true.mpr ⟨x, hx, (hasSub_iff _ _).mpr hi⟩⟩ hc
  · intro soup hsn
    unfold extractTitle
    rw [hsn]
  · intro soup hmn
    unfold metaDescription
    rw [hmn]

/-- Witness for C7 at keyword "title" against the sentinel strings. -/
theorem C7_witness :
    ("title".toList) ≠ [] ∧
    ((kwInTitle ("title".toList) noTitleSentinel = 5 ↔
        ("title".toList) <:+: pyLower noTitleSentinel) ∧
      (kwInMeta ("title".toList) noMetaSentinel = 5 ↔
        ("title".toList) <:+: pyLower noMetaSentinel) ∧
      (kwInH1 ("title".toList) [] = 5 ↔ ∃ h ∈ ([] : List Str), ("title".toList) <:+: pyLower h) ∧
      (∀ soup : Soup, soup.titleTag = none → extractTitle soup = some noTitleSentinel) ∧
      (∀ soup : Soup, metaDescTag soup = none → metaDescription soup = noMetaSentinel)) :=
  ⟨by decide, C7_placement_flags ("title".toList) noTitleSentinel noMetaSentinel [] (by decide)⟩

/-- C7 counterexample: with the title and meta description absent, the
keywords "title" and "description" are found inside the sentinel strings and
the 5-point bonuses are awarded — an absent element does not always count as
non-matching. -/
theorem C7_counterexample :
    extractTitle emptySoup = some noTitleSentinel ∧
    kwInTitle ("title".toList) noTitleSentinel = 5 ∧
    kwInMeta ("description".toList) noMetaSentinel = 5 := by decide

lemma fsk_go_mem :
    ∀ (rest acc : List Str) (x : Str),
      x ∈ rest.foldl (fun acc p => if p ∈ acc then acc else acc ++ [p]) acc ↔
        (x ∈ acc ∨ x ∈ rest) := by
  intro rest
  induction rest with
  | nil => intro acc x; simp
  | cons p rest' ih =>
    intro acc x
    simp only [List.foldl_cons]
    rw [ih]
    by_cases hp : p ∈ acc
    · rw [if_pos hp]
      have hxp : x = p → x ∈ acc := fun e => e ▸ hp
      simp only [List.mem_cons]
      tauto
    · rw [if_neg hp]
      simp only [List.mem_append, List.mem_singleton, List.mem_cons]
      tauto

lemma firstIdx_lt_length {q : Str} : ∀ {d : List Str}, q ∈ d → firstIdx d q < d.length := by
  intro d
  induction d with
  | nil => intro h; cases h
  | cons a rest ih =>
    intro h
    by_cases ha : a = q
    · simp [firstIdx, ha]
    · have hq : q ∈ rest := by
        rcases List.mem_cons.mp h with rfl | hr
        · exact absurd rfl ha
        · exact hr
      simp only [firstIdx, if_neg ha, List.length_cons]
      exact Nat.add_lt_add_right (ih hq) 1

lemma firstIdx_append_of_mem {q : Str} : ∀ {d : List Str} (r : List Str), q ∈ d →
    firstIdx (d ++ r) q = firstIdx d q := by
  intro d
  induction d with
  | nil => intro r h; cases h
  | cons a rest ih =>
    intro r h
    by_cases ha : a = q
    · simp [firstIdx, ha]
    · have hq : q ∈ rest := by
        rcases List.mem_cons.mp h with rfl | hr
        · exact absurd rfl ha
        · exact hr
      simp [firstIdx, ha, ih r hq]

lemma firstIdx_append_of_not_mem {q : Str} : ∀ {d : List Str} (r : List Str), q ∉ d →
    firstIdx (d ++ r) q = d.length + firstIdx r q := by
  intro d
  induction d with
  | nil => intro r _; simp [firstIdx]
  | cons a rest ih =>
    intro r h
    have ha : ¬ a = q := fun e => h (List.mem_cons.mpr (Or.inl e.symm))
    have hq : q ∉ rest := fun hr => h (List.mem_cons_of_mem a hr)
    simp only [List.cons_append, firstIdx, if_neg ha, List.length_cons, List.append_eq]
    rw [ih r hq]
    omega

lemma firstIdx_prefix_lt {q : Str} (d r : List Str) (hq : q ∈ d) :
    firstIdx (d ++ r) q < d.length := by
  rw [firstIdx_append_of_mem r hq]
  exact firstIdx_lt_length hq

lemma fsk_go_pairwise (L : List Str) :
    ∀ (rest done acc : List Str), done ++ rest = L →
      (∀ x, x ∈ acc ↔ x ∈ done) →
      acc.Pairwise (fun p q => firstIdx L p < firstIdx L q) →
      (rest.foldl (fun acc p => if p ∈ acc then acc else acc ++ [p]) acc).Pairwise
        (fun p q => firstIdx L p < firstIdx L q) := by
  intro rest
  induction rest with
  | nil => intro done acc _ _ hpw; exact hpw
  | cons p rest' ih =>
    intro done acc hL hmem hpw
    simp only [List.foldl_cons]
    by_cases hp : p ∈ acc
    · rw [if_pos hp]
      refine ih (done ++ [p]) acc ?_ ?_ hpw
      · rw [List.append_assoc]; exact hL
      · intro x
        rw [List.mem_append, List.mem_singleton]
        constructor
        · exact fun hx => Or.inl ((hmem x).mp hx)
        · rintro (hx | rfl)
          · exact (hmem x).mpr hx
          · exact hp
    · rw [if_neg hp]
      have hpd : p ∉ done := fun hd => hp ((hmem p).mpr hd)
      refine ih (done ++ [p]) (acc ++ [p]) ?_ ?_ ?_
      · rw [List.append_assoc]; exact hL
      · intro x
        rw [List.mem_append, List.mem_singleton, List.mem_append, List.mem_singleton]
        constructor
        · rintro (hx | rfl)
          · exact Or.inl ((hmem x).mp hx)
          · exact Or.inr rfl
        · rintro (hx | rfl)
          · exact Or.inl ((hmem x).mpr hx)
          · exact Or.inr rfl
      · rw [List.pairwise_append]
        refine ⟨hpw, List.pairwise_singleton _ _, ?_⟩
        intro q hq b hb
        rw [List.mem_singleton] at hb
        rw [hb]
        have hqd : q ∈ done := (hmem q).mp hq
        have h1 : firstIdx L q < done.length := by
          rw [← hL]; exact firstIdx_prefix_lt done (p :: rest') hqd
        have h2 : firstIdx L p = done.length + firstIdx (p :: rest') p := by
          rw [← hL]; exact firstIdx_append_of_not_mem (p :: rest') hpd
        have h3 : firstIdx (p :: rest') p = 0 := by simp [firstIdx]
        omega

lemma firstSeenKeys_pairwise (l : List Str) :
    (firstSeenKeys l).Pairwise (fun p q => firstIdx l p < firstIdx l q) :=
  fsk_go_pairwise l l [] [] rfl (by simp) List.Pairwise.nil

lemma mem_firstSeenKeys {x : Str} {l : List Str} : x ∈ firstSeenKeys l ↔ x ∈ l := by
  unfold firstSeenKeys
  rw [fsk_go_mem]
  simp

lemma tally_pairwise (l : List Str) :
    (tally l).Pairwise (fun a b => firstIdx l a.1 < firstIdx l b.1) := by
  unfold tally
  rw [List.pairwise_map]
  exact firstSeenKeys_pairwise l

lemma mem_tally {a : Str × ℕ} {l : List Str} (h : a ∈ tally l) :
    a.1 ∈ l ∧ a.2 = l.count a.1 := by
  unfold tally at h
  rcases List.mem_map.mp h with ⟨p, hp, rfl⟩
  exact ⟨mem_firstSeenKeys.mp hp, rfl⟩

lemma orderedInsert_pairwise_stable (S : Str × ℕ → Str × ℕ → Prop) (x : Str × ℕ) :
    ∀ (M : List (Str × ℕ)),
      M.Pairwise (fun a b => b.2 < a.2 ∨ (a.2 = b.2 ∧ S a b)) →
      M.Pairwise byCountDesc →
      (∀ y ∈ M, S x y) →
      (List.orderedInsert byCountDesc x M).Pairwise
        (fun a b => b.2 < a.2 ∨ (a.2 = b.2 ∧ S a b)) := by
  intro M
  induction M with
  | nil => intro _ _ _; simp [List.orderedInsert]
  | cons b M' ih =>
    intro hW hsort hS
    simp only [List.orderedInsert]
    split_ifs with hrb
    · refine List.Pairwise.cons ?_ hW
      intro z hz
      rcases List.mem_cons.mp hz with rfl | hz'
      · rcases lt_or_eq_of_le hrb with hlt | heq
        · exact Or.inl hlt
        · exact Or.inr ⟨heq.symm, hS z (List.mem_cons_self z M')⟩
      · have hbz : z.2 ≤ b.2 := (List.pairwise_cons.mp hsort).1 z hz'
        have hzx : z.2 ≤ x.2 := le_trans hbz hrb
        rcases lt_or_eq_of_le hzx with hlt | heq
        · exact Or.inl hlt
        · exact Or.inr ⟨heq.symm, hS z (List.mem_cons_of_mem b hz')⟩
    · have hxb : x.2 < b.2 := by
        unfold byCountDesc at hrb
        omega
      refine List.Pairwise.cons ?_ ?_
      · intro z hz
        rcases (List.mem_orderedInsert byCountDesc).mp hz with rfl | hz'
        · exact Or.inl hxb
        · exact (List.pairwise_cons.mp hW).1 z hz'
      · exact ih (List.pairwise_cons.mp hW).2 (List.pairwise_cons.mp hsort).2
          (fun y hy => hS y (List.mem_cons_of_mem b hy))

lemma insertionSort_pairwise_stable (S : Str × ℕ → Str × ℕ → Prop) :
    ∀ (l : List (Str × ℕ)), l.Pairwise S →
      (List.insertionSort byCountDesc l).Pairwise
        (fun a b => b.2 < a.2 ∨ (a.2 = b.2 ∧ S a b)) := by
  intro l
  induction l with
  | nil => intro _; simp
  | cons x l' ih =>
    intro hS
    simp only [List.insertionSort]
    refine orderedInsert_pairwise_stable S x _ ?_ ?_ ?_
    · exact ih (List.pairwise_cons.mp hS).2
    · exact List.sorted_insertionSort byCountDesc l'
    · intro y hy
      exact (List.pairwise_cons.mp hS).1 y
        ((List.perm_insertionSort byCountDesc l').mem_iff.mp hy)

/-- C8: `get_ngram_density` returns the empty list when there are fewer than
`n` tokens; otherwise at most 10 pairs, each pairing a phrase built from the
contiguous `n`-token windows with its frequency among all windows, sorted by
descending frequency with ties broken in favor of the phrase whose first
occurrence is earlier. -/
theorem C8_ngram_top10 (words : List Str) (n : ℕ) (_hn : n = 2 ∨ n = 3 ∨ n = 4) :
    (words.length < n → get_ngram_density words n = []) ∧
    (get_ngram_density words n).length ≤ 10 ∧
    (∀ p ∈ get_ngram_density words n,
      p.1 ∈ phrasesOf words n ∧ p.2 = (phrasesOf words n).count p.1) ∧
    (get_ngram_density words n).Pairwise (fun a b => b.2 ≤ a.2) ∧
    (get_ngram_density words n).Pairwise (fun a b => a.2 = b.2 →
      firstIdx (phrasesOf words n) a.1 < firstIdx (phrasesOf words n) b.1) := by
  refine ⟨?_, ?_, ?_, ?_, ?_⟩
  · intro hlen
    unfold get_ngram_density most_common tally phrasesOf ngramWindows firstSeenKeys
    rw [show words.length + 1 - n = 0 by omega]
    rfl
  · exact List.length_take_le 10 _
  · intro p hp
    have hp1 : p ∈ List.insertionSort byCountDesc (tally (phrasesOf words n)) :=
      List.take_subset 10 _ hp
    have hp2 : p ∈ tally (phrasesOf words n) :=
      (List.perm_insertionSort byCountDesc _).mem_iff.mp hp1
    exact mem_tally hp2
  · have hs := List.sorted_insertionSort byCountDesc (tally (phrasesOf words n))
    have hsub : (get_ngram_density words n).Sublist
        (List.insertionSort byCountDesc (tally (phrasesOf words n))) :=
      List.take_sublist 10 _
    exact List.Pairwise.sublist hsub hs
  · have hst := insertionSort_pairwise_stable
      (fun a b => firstIdx (phrasesOf words n) a.1 < firstIdx (phrasesOf words n) b.1)
      (tally (phrasesOf words n)) (tally_pairwise (phrasesOf words n))
    have hsub : (get_ngram_density words n).Sublist
        (List.insertionSort byCountDesc (tally (phrasesOf words n))) :=
      List.take_sublist 10 _
    refine (List.Pairwise.sublist hsub hst).imp ?_
    intro a b hab heq
    rcases hab with hlt | ⟨-, hidx⟩
    · omega
    · exact hidx

/-- Witness for C8 at a concrete token list and `n = 2`. -/
theorem C8_witness :
    ((2 : ℕ) = 2 ∨ (2 : ℕ) = 3 ∨ (2 : ℕ) = 4) ∧
    ((sampleWords.length < 2 → get_ngram_density sampleWords 2 = []) ∧
      (get_ngram_density sampleWords 2).length ≤ 10 ∧
      (∀ p ∈ get_ngram_density sampleWords 2,
        p.1 ∈ phrasesOf sampleWords 2 ∧ p.2 = (phrasesOf sampleWords 2).count p.1) ∧
      (get_ngram_density sampleWords 2).Pairwise (fun a b => b.2 ≤ a.2) ∧
      (get_ngram_density sampleWords 2).Pairwise (fun a b => a.2 = b.2 →
        firstIdx (phrasesOf sampleWords 2) a.1 < firstIdx (phrasesOf sampleWords 2) b.1)) :=
  ⟨Or.inl rfl, C8_ngram_top10 sampleWords 2 (Or.inl rfl)⟩

end Seo

